import Mathlib

/-!
Verification of the placement engine of the truck-loading optimizer
(`src/services/optimizationAlgorithm.ts`), a greedy 3D container-loading
heuristic.

Modelling conventions for the shallow embedding:

* JavaScript numbers are modelled as exact rationals (`ℚ`).  The source
  performs no bit-level float tricks; all its arithmetic is ordinary
  `+ - * /`, `Math.min/max/abs`, and comparisons, which we interpret
  exactly.  The one place where a claim depends on IEEE non-finite
  results (division by a zero container volume in
  `calculateSpaceUtilization`) is modelled explicitly with `Option ℚ`,
  `none` standing for the non-finite (`NaN`/`Infinity`) outcome.
  Inside `canPlaceSkid` the support check divides by the candidate's
  footprint area; in JS a zero area makes the quotient `NaN`/`Infinity`
  and the `< 0.7` comparison false, so the embedded check only rejects
  when the area is nonzero (see the comment at the definition).
* Optional TS fields (`insideWidth?`, `maxWeightOnTop?`, `position?`,
  `cubicCapacity?`) are `Option`s.  The source reads the container's
  optional fields with `||`, whose falsiness test treats `0` like
  `undefined`; `jsOrQ` reproduces this.
* `Position.rotation` is optional in the TS interface but every position
  the engine creates carries rotation `0` or `90`, so it is embedded as
  a plain `ℚ`.
* `Array.prototype.sort` with a consistent comparator is required to be
  a stable sort, and the stably-sorted permutation of a list under a
  total preorder is unique; it is modelled by `List.insertionSort` (a
  stable sort) with the relation `le a b ⟺ comparator a b ≤ 0`.
* The `for (v = start; v <= stop; v += 0.1)` sweeps are modelled as the
  exact arithmetic progressions they denote, via `sweepFrom`.
-/

namespace TruckLoading

/-- `models/types.ts` `Position`: offsets from the left side, floor and
front of the truck, plus the rotation (0 or 90 degrees) around Y. -/
structure Position where
  x : ℚ
  y : ℚ
  z : ℚ
  rotation : ℚ
deriving DecidableEq, Repr

instance : Inhabited Position := ⟨⟨0, 0, 0, 0⟩⟩

/-- `models/types.ts` `Skid`. -/
structure Skid where
  id : String
  label : String
  width : ℚ
  length : ℚ
  height : ℚ
  weight : ℚ
  priority : ℚ
  isStackable : Bool
  isFragile : Bool
  position : Option Position := none
  maxWeightOnTop : Option ℚ := none
  description : Option String := none
  specialHandling : Option String := none
deriving DecidableEq, Repr

/-- `models/types.ts` `TruckDimensions`. -/
structure TruckDimensions where
  length : ℚ
  width : ℚ
  height : ℚ
  maxWeight : ℚ
  insideWidth : Option ℚ := none
  insideHeight : Option ℚ := none
  insideLength : Option ℚ := none
  frameWidth : Option ℚ := none
  cubicCapacity : Option ℚ := none
deriving DecidableEq, Repr

/-- The five percentage buckets of `LoadingPlan['weightDistribution']`. -/
structure WeightDistribution where
  front : ℚ
  middle : ℚ
  back : ℚ
  left : ℚ
  right : ℚ
deriving DecidableEq, Repr

/-- `models/types.ts` `LoadingPlan`.  `spaceUtilization` is an `Option`:
`none` models the non-finite number (`NaN`/`Infinity`) that the JS code
produces when the derived container volume is zero. -/
structure LoadingPlan where
  truckDimensions : TruckDimensions
  loadedSkids : List Skid
  unloadedSkids : List Skid
  spaceUtilization : Option ℚ
  totalWeight : ℚ
  weightDistribution : WeightDistribution
deriving DecidableEq, Repr

/-- `models/types.ts` `LoadingStep`. -/
structure LoadingStep where
  skidId : String
  position : Position
  instruction : String
deriving DecidableEq, Repr

/-- `models/types.ts` `LoadingSequence`. -/
structure LoadingSequence where
  steps : List LoadingStep
deriving DecidableEq, Repr

/-- JS `a || b` on an optional numeric field: `undefined` and `0` are
falsy, so both fall through to the default. -/
def jsOrQ (o : Option ℚ) (d : ℚ) : ℚ :=
  match o with
  | none => d
  | some v => if v = 0 then d else v

/-- `utils/constants.ts` `ALGORITHM_CONFIG.PRIORITY_WEIGHT`. -/
def PRIORITY_WEIGHT : ℚ := 0.7

/-- `truckDimensions.insideWidth || truckDimensions.width * 0.95`,
recomputed at the top of each function in the source. -/
def usableWidth (t : TruckDimensions) : ℚ := jsOrQ t.insideWidth (t.width * 0.95)

/-- `truckDimensions.insideHeight || truckDimensions.height * 0.75`. -/
def usableHeight (t : TruckDimensions) : ℚ := jsOrQ t.insideHeight (t.height * 0.75)

/-- `truckDimensions.insideLength || truckDimensions.length * 0.95`. -/
def usableLength (t : TruckDimensions) : ℚ := jsOrQ t.insideLength (t.length * 0.95)

/-- Effective footprint width at a position:
`rotation === 0 ? skid.width : skid.length`.  Engine-created positions
only carry rotation 0 or 90, so this is "width and length swapped when
the rotation is 90". -/
def effWidth (s : Skid) (p : Position) : ℚ :=
  if p.rotation = 0 then s.width else s.length

/-- Effective footprint length at a position:
`rotation === 0 ? skid.length : skid.width`. -/
def effLength (s : Skid) (p : Position) : ℚ :=
  if p.rotation = 0 then s.length else s.width

/-- `calculateSkidVolume`: `skid.width * skid.length * skid.height`. -/
def calculateSkidVolume (skid : Skid) : ℚ :=
  skid.width * skid.length * skid.height

/-- One iteration of the collision loop in `canPlaceSkid`: does the
candidate box `[x,x+sw] × [y,y+sh] × [z,z+sl]` strictly intersect the
placed skid's box?  Skids without a position are skipped (`continue`). -/
def intersectsB (x y z sw sh sl : ℚ) (ps : Skid) : Bool :=
  match ps.position with
  | none => false
  | some pp =>
    let placedWidth := effWidth ps pp
    let placedLength := effLength ps pp
    decide (x < pp.x + placedWidth ∧ x + sw > pp.x ∧
      y < pp.y + ps.height ∧ y + sh > pp.y ∧
      z < pp.z + placedLength ∧ z + sl > pp.z)

/-- The first support loop of `canPlaceSkid`: total horizontal overlap
area with already-placed stackable skids whose top face is exactly at
elevation `y` and whose footprint strictly overlaps the candidate
footprint `[x,x+sw] × [z,z+sl]`. -/
def supportedAreaOn (x z sw sl y : ℚ) (placedSkids : List Skid) : ℚ :=
  placedSkids.foldl (fun acc ps =>
    match ps.position with
    | none => acc
    | some pp =>
      if ps.isStackable then
        let placedWidth := effWidth ps pp
        let placedLength := effLength ps pp
        if pp.y + ps.height = y ∧ x < pp.x + placedWidth ∧ x + sw > pp.x ∧
            z < pp.z + placedLength ∧ z + sl > pp.z then
          acc + (min (x + sw) (pp.x + placedWidth) - max x pp.x) *
            (min (z + sl) (pp.z + placedLength) - max z pp.z)
        else acc
      else acc) 0

/-- The second support loop of `canPlaceSkid`: accumulated weight
capacity from the supporting skids.  Each supporter contributes
`maxWeightOnTop * overlapArea / footprintArea` when `maxWeightOnTop` is
defined, else `weight * 0.8 * overlapArea / footprintArea`. -/
def maxWeightSupportOn (x z sw sl y : ℚ) (placedSkids : List Skid) : ℚ :=
  placedSkids.foldl (fun acc ps =>
    match ps.position with
    | none => acc
    | some pp =>
      if ps.isStackable then
        let placedWidth := effWidth ps pp
        let placedLength := effLength ps pp
        if pp.y + ps.height = y ∧ x < pp.x + placedWidth ∧ x + sw > pp.x ∧
            z < pp.z + placedLength ∧ z + sl > pp.z then
          let overlapArea := (min (x + sw) (pp.x + placedWidth) - max x pp.x) *
            (min (z + sl) (pp.z + placedLength) - max z pp.z)
          let supportProp := overlapArea / (placedWidth * placedLength)
          match ps.maxWeightOnTop with
          | some m => acc + m * supportProp
          | none => acc + ps.weight * 0.8 * supportProp
        else acc
      else acc) 0

/-- `canPlaceSkid`: bounds check, collision check, and (when `y > 0`)
the ≥70% support-area check followed by the weight-capacity check.
In JS, when the candidate footprint area is zero the support ratio is
`NaN`/`Infinity` and the `< 0.7` comparison is false, so the area check
only rejects when `skidArea ≠ 0`. -/
def canPlaceSkid (skid : Skid) (position : Position) (placedSkids : List Skid)
    (truckDimensions : TruckDimensions) : Bool :=
  let x := position.x
  let y := position.y
  let z := position.z
  let skidWidth := effWidth skid position
  let skidLength := effLength skid position
  let insideWidth := usableWidth truckDimensions
  let insideHeight := usableHeight truckDimensions
  let insideLength := usableLength truckDimensions
  if x < 0 ∨ y < 0 ∨ z < 0 ∨ x + skidWidth > insideWidth ∨
      y + skid.height > insideHeight ∨ z + skidLength > insideLength then
    false
  else if placedSkids.any (fun ps => intersectsB x y z skidWidth skid.height skidLength ps) then
    false
  else if y > 0 then
    let supportedArea := supportedAreaOn x z skidWidth skidLength y placedSkids
    let skidArea := skidWidth * skidLength
    if skidArea ≠ 0 ∧ supportedArea / skidArea < 0.7 then
      false
    else if skid.weight > maxWeightSupportOn x z skidWidth skidLength y placedSkids then
      false
    else
      true
  else
    true

/-- The values visited by `for (v = start; v <= stop; v += 0.1)` under
exact arithmetic: `start, start + 1/10, ...` while `≤ stop`. -/
def sweepFrom (start stop : ℚ) : List ℚ :=
  if start ≤ stop then
    (List.range (((stop - start) * 10).floor.toNat + 1)).map (fun k => start + (k : ℚ) / 10)
  else
    []

/-- The body shared by both sweep loops of `findPossiblePositions`: try
the normal orientation then the 90-degree rotation at `(x, y, z)`,
keeping whichever passes `canPlaceSkid`. -/
def tryPositions (skid : Skid) (x y z : ℚ) (placedSkids : List Skid)
    (truckDimensions : TruckDimensions) : List Position :=
  let normalPos : Position := { x := x, y := y, z := z, rotation := 0 }
  let rotatedPos : Position := { x := x, y := y, z := z, rotation := 90 }
  (if canPlaceSkid skid normalPos placedSkids truckDimensions then [normalPos] else []) ++
  (if canPlaceSkid skid rotatedPos placedSkids truckDimensions then [rotatedPos] else [])

/-- `findPossiblePositions`: floor-level grid sweep at step 0.1 (both
orientations), plus — only when the skid is not fragile — positions on
top of every already-placed stackable skid, sweeping offsets across the
supporter's footprint. -/
def findPossiblePositions (skid : Skid) (placedSkids : List Skid)
    (truckDimensions : TruckDimensions) : List Position :=
  let step : ℚ := 0.1
  let insideWidth := usableWidth truckDimensions
  let insideLength := usableLength truckDimensions
  let floorPositions :=
    (sweepFrom 0 (insideLength - min skid.length skid.width)).flatMap (fun z =>
      (sweepFrom 0 (insideWidth - min skid.length skid.width)).flatMap (fun x =>
        tryPositions skid x 0 z placedSkids truckDimensions))
  let stackedPositions :=
    if skid.isFragile then [] else
      placedSkids.flatMap (fun ps =>
        match ps.position with
        | none => []
        | some pp =>
          if ps.isStackable then
            let y := pp.y + ps.height
            (sweepFrom (-skid.length + step) ps.length).flatMap (fun zOffset =>
              (sweepFrom (-skid.width + step) ps.width).flatMap (fun xOffset =>
                tryPositions skid (pp.x + xOffset) y (pp.z + zOffset) placedSkids
                  truckDimensions))
          else [])
  floorPositions ++ stackedPositions

/-- One placed skid's contribution to the contact bonus in
`scorePosition`: face-adjacent contact on the X or Z axis within the
overlapping Y range.  Note the candidate's raw `skid.width` and
`skid.length` are used, not the rotated footprint. -/
def inContactWith (skid : Skid) (position : Position) (ps : Skid) : Bool :=
  match ps.position with
  | none => false
  | some pp =>
    let placedWidth := if pp.rotation = 0 then ps.width else ps.length
    let placedLength := if pp.rotation = 0 then ps.length else ps.width
    let isInContactX := (position.x = pp.x + placedWidth ∨ position.x + skid.width = pp.x) ∧
      position.z < pp.z + placedLength ∧ position.z + skid.length > pp.z ∧
      position.y < pp.y + ps.height ∧ position.y + skid.height > pp.y
    let isInContactZ := (position.z = pp.z + placedLength ∨ position.z + skid.length = pp.z) ∧
      position.x < pp.x + placedWidth ∧ position.x + skid.width > pp.x ∧
      position.y < pp.y + ps.height ∧ position.y + skid.height > pp.y
    decide (isInContactX ∨ isInContactZ)

/-- `scorePosition`: priority/depth term, floor bonus, wall-contact
bonuses (raw `skid.width`/`skid.length`, `>=` comparisons, as in the
source), neighbor-contact bonus, and the lateral balance penalty. -/
def scorePosition (skid : Skid) (position : Position) (placedSkids : List Skid)
    (truckDimensions : TruckDimensions) : ℚ :=
  let insideWidth := usableWidth truckDimensions
  let insideLength := usableLength truckDimensions
  let priorityScore :=
    if skid.priority ≤ 2 then
      (1 - position.z / insideLength) * 10 * PRIORITY_WEIGHT
    else
      (position.z / insideLength) * 5
  let floorScore : ℚ := if position.y = 0 then 3 else 0
  let sideWallScore : ℚ :=
    if position.x = 0 ∨ position.x + skid.width ≥ insideWidth then 2 else 0
  let frontBackScore : ℚ :=
    if position.z = 0 ∨ position.z + skid.length ≥ insideLength then 2 else 0
  let contactScore : ℚ :=
    placedSkids.foldl (fun acc ps => if inContactWith skid position ps then acc + 1 else acc) 0
  let xCenterOfTruck := insideWidth / 2
  let skidCenterX := position.x + skid.width / 2
  let distanceFromCenter := |skidCenterX - xCenterOfTruck|
  priorityScore + floorScore + sideWallScore + frontBackScore + contactScore -
    distanceFromCenter * 0.5

/-- The comparator of `sortSkidsForLoading` (priority ascending, then
weight descending, then volume descending): `loadingLE a b` holds
exactly when the JS comparator returns a non-positive number on
`(a, b)`. -/
def loadingLE (a b : Skid) : Prop :=
  a.priority < b.priority ∨ (a.priority = b.priority ∧
    (b.weight < a.weight ∨ (a.weight = b.weight ∧
      calculateSkidVolume b ≤ calculateSkidVolume a)))

instance decLoadingLE : DecidableRel loadingLE := fun a b => by
  unfold loadingLE; infer_instance

instance totalLoadingLE : IsTotal Skid loadingLE := by
  constructor
  intro a b
  rcases lt_trichotomy a.priority b.priority with h | h | h
  · exact Or.inl (Or.inl h)
  · rcases lt_trichotomy b.weight a.weight with hw | hw | hw
    · exact Or.inl (Or.inr ⟨h, Or.inl hw⟩)
    · rcases le_total (calculateSkidVolume b) (calculateSkidVolume a) with hv | hv
      · exact Or.inl (Or.inr ⟨h, Or.inr ⟨hw.symm, hv⟩⟩)
      · exact Or.inr (Or.inr ⟨h.symm, Or.inr ⟨hw, hv⟩⟩)
    · exact Or.inr (Or.inr ⟨h.symm, Or.inl hw⟩)
  · exact Or.inr (Or.inl h)

instance transLoadingLE : IsTrans Skid loadingLE := by
  constructor
  intro a b c hab hbc
  rcases hab with h1 | ⟨e1, h1⟩ <;> rcases hbc with h2 | ⟨e2, h2⟩
  · exact Or.inl (h1.trans h2)
  · exact Or.inl (by rw [← e2]; exact h1)
  · exact Or.inl (by rw [e1]; exact h2)
  · refine Or.inr ⟨e1.trans e2, ?_⟩
    rcases h1 with h1 | ⟨f1, h1⟩ <;> rcases h2 with h2 | ⟨f2, h2⟩
    · exact Or.inl (h2.trans h1)
    · exact Or.inl (by rw [← f2]; exact h1)
    · exact Or.inl (by rw [f1]; exact h2)
    · exact Or.inr ⟨f1.trans f2, h2.trans h1⟩

/-- `sortSkidsForLoading`: stable sort by priority, weight, volume. -/
def sortSkidsForLoading (skids : List Skid) : List Skid :=
  skids.insertionSort loadingLE

/-- Accumulator of `calculateWeightDistribution`'s `forEach` loop. -/
structure WDTotals where
  total : ℚ
  front : ℚ
  middle : ℚ
  back : ℚ
  left : ℚ
  right : ℚ
deriving DecidableEq, Repr

/-- One iteration of the `forEach` in `calculateWeightDistribution`:
skids without a position are skipped; otherwise the weight is added to
the total, to exactly one of front/middle/back by the relative depth of
the rotated center, and to left or right by the relative lateral
center. -/
def wdStep (truckDimensions : TruckDimensions) (acc : WDTotals) (skid : Skid) : WDTotals :=
  match skid.position with
  | none => acc
  | some position =>
    let insideLength := usableLength truckDimensions
    let insideWidth := usableWidth truckDimensions
    let weight := skid.weight
    let skidCenterZ := position.z + (if position.rotation = 0 then skid.length else skid.width) / 2
    let relativeZ := skidCenterZ / insideLength
    let acc1 : WDTotals := { acc with total := acc.total + weight }
    let acc2 : WDTotals :=
      if relativeZ < 0.33 then { acc1 with front := acc1.front + weight }
      else if relativeZ < 0.66 then { acc1 with middle := acc1.middle + weight }
      else { acc1 with back := acc1.back + weight }
    let skidCenterX := position.x + (if position.rotation = 0 then skid.width else skid.length) / 2
    let relativeX := skidCenterX / insideWidth
    if relativeX < 0.5 then { acc2 with left := acc2.left + weight }
    else { acc2 with right := acc2.right + weight }

/-- `calculateWeightDistribution`: bucket the loaded weight and convert
to percentages, each guarded by `totalWeight > 0`. -/
def calculateWeightDistribution (loadedSkids : List Skid)
    (truckDimensions : TruckDimensions) : WeightDistribution :=
  let totals := loadedSkids.foldl (wdStep truckDimensions) ⟨0, 0, 0, 0, 0, 0⟩
  { front := if totals.total > 0 then totals.front / totals.total * 100 else 0
    middle := if totals.total > 0 then totals.middle / totals.total * 100 else 0
    back := if totals.total > 0 then totals.back / totals.total * 100 else 0
    left := if totals.total > 0 then totals.left / totals.total * 100 else 0
    right := if totals.total > 0 then totals.right / totals.total * 100 else 0 }

/-- The `truckVolume` computed in `calculateSpaceUtilization`:
`cubicCapacity || usableLength * usableWidth * usableHeight`. -/
def truckUsableVolume (t : TruckDimensions) : ℚ :=
  jsOrQ t.cubicCapacity (usableLength t * usableWidth t * usableHeight t)

/-- `calculateSpaceUtilization`: `(skidsVolume / truckVolume) * 100`.
The JS code does not guard the division: a zero `truckVolume` yields a
non-finite number (`NaN` or `Infinity`), modelled as `none`. -/
def calculateSpaceUtilization (loadedSkids : List Skid)
    (truckDimensions : TruckDimensions) : Option ℚ :=
  let truckVolume := truckUsableVolume truckDimensions
  let skidsVolume := loadedSkids.foldl (fun sum skid => sum + calculateSkidVolume skid) 0
  if truckVolume = 0 then none else some (skidsVolume / truckVolume * 100)

/-- The comparator of `generateLoadingSequence`'s sort: by `y` (floor
level first), then by `z` (front to back); `loadOrderLE a b` holds
exactly when the JS comparator returns a non-positive number on
`(a, b)`. -/
def loadOrderLE (a b : Skid) : Prop :=
  (a.position.getD default).y < (b.position.getD default).y ∨
    ((a.position.getD default).y = (b.position.getD default).y ∧
      (a.position.getD default).z ≤ (b.position.getD default).z)

instance decLoadOrderLE : DecidableRel loadOrderLE := fun a b => by
  unfold loadOrderLE; infer_instance

instance totalLoadOrderLE : IsTotal Skid loadOrderLE := by
  constructor
  intro a b
  rcases lt_trichotomy (a.position.getD default).y (b.position.getD default).y with h | h | h
  · exact Or.inl (Or.inl h)
  · rcases le_total (a.position.getD default).z (b.position.getD default).z with hz | hz
    · exact Or.inl (Or.inr ⟨h, hz⟩)
    · exact Or.inr (Or.inr ⟨h.symm, hz⟩)
  · exact Or.inr (Or.inl h)

instance transLoadOrderLE : IsTrans Skid loadOrderLE := by
  constructor
  intro a b c hab hbc
  rcases hab with h1 | ⟨e1, h1⟩ <;> rcases hbc with h2 | ⟨e2, h2⟩
  · exact Or.inl (h1.trans h2)
  · exact Or.inl (by rw [← e2]; exact h1)
  · exact Or.inl (by rw [e1]; exact h2)
  · exact Or.inr ⟨e1.trans e2, h1.trans h2⟩

/-- `Number.prototype.toFixed(2)` on an exact rational: the integer `n`
minimizing the distance of `n / 100` from the value, larger `n` on
ties, rendered with two decimals. -/
def ratToFixed2 (q : ℚ) : String :=
  let n : ℤ := (q * 100 + 1 / 2).floor
  let render : ℕ → String := fun m =>
    toString (m / 100) ++ "." ++
      (if m % 100 < 10 then "0" ++ toString (m % 100) else toString (m % 100))
  if n < 0 then "-" ++ render (-n).toNat else render n.toNat

/-- The instruction string built for each loading step. -/
def loadingInstructionText (stepNumber : ℕ) (skid : Skid) (position : Position) : String :=
  let rotationText := if position.rotation = 0 then "length-wise" else "width-wise"
  let side :=
    if position.x < skid.width / 2 then "left side"
    else if position.x > skid.width / 2 then "right side"
    else "center"
  "Step " ++ toString stepNumber ++ ": Load " ++ skid.label ++ " " ++ rotationText ++
    " on the " ++ side ++ " at " ++ ratToFixed2 position.z ++
    " meters from the front, " ++ ratToFixed2 position.x ++
    " meters from the left side, and " ++
    (if position.y > 0 then "stacked on top of other skids" else "on the floor") ++ "."

/-- `generateLoadingSequence`: keep the loaded skids that carry a
position, stably sort them by (y, z), and emit one step per skid.  The
source reads `skid.position!` after the filter; the embedded `getD`
default is unreachable for the same reason. -/
def generateLoadingSequence (loadedSkids : List Skid) : LoadingSequence :=
  let sortedForLoading := (loadedSkids.filter (fun s => s.position.isSome)).insertionSort loadOrderLE
  let steps := sortedForLoading.enum.map (fun pr =>
    let skid := pr.2
    let position := skid.position.getD default
    { skidId := skid.id
      position := position
      instruction := loadingInstructionText (pr.1 + 1) skid position : LoadingStep })
  { steps := steps }

/-- The selection of the best-scoring position in `optimizeLoading`'s
inner loop: strict improvement only, so the first position with the
maximal score wins.  The JS loop starts from `bestScore = -Infinity`,
so the first candidate always replaces the initial `null`. -/
def pickBestAux (skid : Skid) (placedSkids : List Skid) (truckDimensions : TruckDimensions) :
    Option (Position × ℚ) → List Position → Option (Position × ℚ)
  | best, [] => best
  | none, p :: rest =>
    pickBestAux skid placedSkids truckDimensions
      (some (p, scorePosition skid p placedSkids truckDimensions)) rest
  | some pr, p :: rest =>
    let score := scorePosition skid p placedSkids truckDimensions
    pickBestAux skid placedSkids truckDimensions
      (if score > pr.2 then some (p, score) else some pr) rest

/-- Best position among the candidates (`none` iff there are none). -/
def pickBest (skid : Skid) (positions : List Position) (placedSkids : List Skid)
    (truckDimensions : TruckDimensions) : Option (Position × ℚ) :=
  pickBestAux skid placedSkids truckDimensions none positions

/-- The greedy placement loop of `optimizeLoading`: for each skid in
order, find candidate positions against the current placed set, commit
the best-scoring one (cloning the skid with its position), or skip the
skid when no position exists. -/
def loadSkidsLoop (truckDimensions : TruckDimensions) :
    List Skid → List Skid → List Skid
  | [], loadedSkids => loadedSkids
  | skid :: rest, loadedSkids =>
    let possiblePositions := findPossiblePositions skid loadedSkids truckDimensions
    match pickBest skid possiblePositions loadedSkids truckDimensions with
    | some best =>
      loadSkidsLoop truckDimensions rest (loadedSkids ++ [{ skid with position := some best.1 }])
    | none => loadSkidsLoop truckDimensions rest loadedSkids

/-- `optimizeLoading`: sort, place greedily, classify the rest as
unloaded, and attach the derived metrics. -/
def optimizeLoading (skids : List Skid) (truckDimensions : TruckDimensions) : LoadingPlan :=
  let sortedSkids := sortSkidsForLoading skids
  let loadedSkids := loadSkidsLoop truckDimensions sortedSkids []
  let unloadedSkids := sortedSkids.filter (fun skid =>
    !(loadedSkids.any (fun loaded => loaded.id = skid.id)))
  { truckDimensions := truckDimensions
    loadedSkids := loadedSkids
    unloadedSkids := unloadedSkids
    spaceUtilization := calculateSpaceUtilization loadedSkids truckDimensions
    totalWeight := loadedSkids.foldl (fun sum skid => sum + skid.weight) 0
    weightDistribution := calculateWeightDistribution loadedSkids truckDimensions }

/-- `generateLoadingInstructions`: the loading sequence of a plan. -/
def generateLoadingInstructions (loadingPlan : LoadingPlan) : LoadingSequence :=
  generateLoadingSequence loadingPlan.loadedSkids

/-! ## Claim-facing definitions -/

/-- Do the axis-aligned boxes of two placed skids strictly overlap on
all three axes simultaneously?  Each box spans
`[x, x + effectiveWidth] × [y, y + height] × [z, z + effectiveLength]`
with the footprint swapped according to the position's rotation.
Unpositioned skids overlap nothing. -/
def skidsOverlapB (a b : Skid) : Bool :=
  match a.position, b.position with
  | some pa, some pb =>
    decide (pa.x < pb.x + effWidth b pb ∧ pa.x + effWidth a pa > pb.x ∧
      pa.y < pb.y + b.height ∧ pa.y + a.height > pb.y ∧
      pa.z < pb.z + effLength b pb ∧ pa.z + effLength a pa > pb.z)
  | _, _ => false

/-- Does skid `a` rest on skid `b`: `b`'s top face is exactly at `a`'s
elevation and their footprints strictly overlap horizontally? -/
def restsOnB (a b : Skid) : Bool :=
  match a.position, b.position with
  | some pa, some pb =>
    decide (pb.y + b.height = pa.y ∧ pa.x < pb.x + effWidth b pb ∧
      pa.x + effWidth a pa > pb.x ∧ pa.z < pb.z + effLength b pb ∧
      pa.z + effLength a pa > pb.z)
  | _, _ => false

/-- The property claimed for fragile items: no loaded skid placed above
floor level rests on a fragile loaded skid. -/
def noSkidRestsOnFragileB (plan : LoadingPlan) : Bool :=
  plan.loadedSkids.all (fun a =>
    match a.position with
    | some pa =>
      if 0 < pa.y then plan.loadedSkids.all (fun b => !(restsOnB a b && b.isFragile)) else true
    | none => true)

/-- Is a loaded skid fully inside the container's usable space? -/
def withinBoundsB (t : TruckDimensions) (s : Skid) : Bool :=
  match s.position with
  | some p =>
    decide (0 ≤ p.x ∧ 0 ≤ p.y ∧ 0 ≤ p.z ∧
      p.x + effWidth s p ≤ usableWidth t ∧
      p.y + s.height ≤ usableHeight t ∧
      p.z + effLength s p ≤ usableLength t)
  | none => false

/-- Modelled from the claim's wording for C7 (not from the source): the
scoring formula with the wall-contact terms computed from the *rotated*
footprint and with exact-equality wall tests.  The source instead uses
the raw `skid.width`/`skid.length` and `>=` comparisons. -/
def claimedScorePosition (skid : Skid) (position : Position) (placedSkids : List Skid)
    (truckDimensions : TruckDimensions) : ℚ :=
  let insideWidth := usableWidth truckDimensions
  let insideLength := usableLength truckDimensions
  (if skid.priority ≤ 2 then (1 - position.z / insideLength) * 10 * 0.7
    else (position.z / insideLength) * 5) +
  (if position.y = 0 then 3 else 0) +
  (if position.x = 0 ∨ position.x + effWidth skid position = insideWidth then 2 else 0) +
  (if position.z = 0 ∨ position.z + effLength skid position = insideLength then 2 else 0) +
  (placedSkids.countP (fun ps => inContactWith skid position ps) : ℚ) -
  0.5 * |position.x + effWidth skid position / 2 - insideWidth / 2|

/-- The corrected closed-form score (API of the amended claim C7): the
same sum as `claimedScorePosition` but with the wall-contact tests and
the balance penalty computed from the raw `skid.width`/`skid.length`
and with `≥` wall comparisons, exactly as the source does. -/
def amendedScorePosition (skid : Skid) (position : Position) (placedSkids : List Skid)
    (truckDimensions : TruckDimensions) : ℚ :=
  let insideWidth := usableWidth truckDimensions
  let insideLength := usableLength truckDimensions
  (if skid.priority ≤ 2 then (1 - position.z / insideLength) * 10 * 0.7
    else (position.z / insideLength) * 5) +
  (if position.y = 0 then 3 else 0) +
  (if position.x = 0 ∨ position.x + skid.width ≥ insideWidth then 2 else 0) +
  (if position.z = 0 ∨ position.z + skid.length ≥ insideLength then 2 else 0) +
  (placedSkids.countP (fun ps => inContactWith skid position ps) : ℚ) -
  0.5 * |position.x + skid.width / 2 - insideWidth / 2|

/-- Replace `some 0` by `none` in an optional container dimension. -/
def eraseZeroOpt (o : Option ℚ) : Option ℚ :=
  match o with
  | none => none
  | some v => if v = 0 then none else some v

/-- The container with every optional inner dimension (and the cubic
capacity) that is present-but-zero replaced by an absent field. -/
def zeroInsideErased (t : TruckDimensions) : TruckDimensions :=
  { t with
    insideWidth := eraseZeroOpt t.insideWidth
    insideHeight := eraseZeroOpt t.insideHeight
    insideLength := eraseZeroOpt t.insideLength
    cubicCapacity := eraseZeroOpt t.cubicCapacity }

/-! ## Concrete inputs used by witnesses and counterexamples -/

/-- A fragile but stackable skid (placed first: priority 1). -/
def exSkidA : Skid :=
  { id := "A", label := "A", width := 3/10, length := 3/10, height := 3/10,
    weight := 10, priority := 1, isStackable := true, isFragile := true,
    maxWeightOnTop := some 100 }

/-- A second skid that can only go on top of `exSkidA`. -/
def exSkidB : Skid :=
  { id := "B", label := "B", width := 3/10, length := 3/10, height := 3/10,
    weight := 1, priority := 2, isStackable := false, isFragile := false }

/-- A container whose usable floor holds exactly one of the skids
above, forcing the second one to stack. -/
def exTruck : TruckDimensions :=
  { length := 1, width := 1, height := 1, maxWeight := 1000,
    insideWidth := some (3/10), insideHeight := some 1, insideLength := some (3/10) }

/-- A zero-weight skid (for the weight-distribution counterexample). -/
def exSkidZ : Skid :=
  { id := "Z", label := "Z", width := 3/10, length := 3/10, height := 3/10,
    weight := 0, priority := 1, isStackable := false, isFragile := false }

/-- A container with outer width 0, no inner dimensions and no cubic
capacity: its derived usable volume is `0.95·length · 0 · 0.75·height
= 0`. -/
def exTruckZeroVol : TruckDimensions :=
  { length := 10, width := 0, height := 10, maxWeight := 1000 }

/-- A rectangular skid (width 1, length 2) for the scoring
counterexample. -/
def exSkidScore : Skid :=
  { id := "C", label := "C", width := 1, length := 2, height := 1,
    weight := 1, priority := 3, isStackable := false, isFragile := false }

/-- A rotated position touching the right wall only when measured with
the raw (unrotated) width. -/
def exPosScore : Position := { x := 1, y := 0, z := 1, rotation := 90 }

/-- The container used by the scoring counterexample. -/
def exTruckScore : TruckDimensions :=
  { length := 10, width := 2, height := 3, maxWeight := 1000,
    insideWidth := some 2, insideHeight := some 3, insideLength := some 10 }

/-- One placed skid's contribution to `supportedAreaOn` (0 unless it
is a positioned, stackable skid whose top face is at the candidate's
elevation and whose footprint strictly overlaps the candidate's). -/
def supportContrib (x z sw sl y : ℚ) (ps : Skid) : ℚ :=
  match ps.position with
  | none => 0
  | some pp =>
    if ps.isStackable then
      let placedWidth := effWidth ps pp
      let placedLength := effLength ps pp
      if pp.y + ps.height = y ∧ x < pp.x + placedWidth ∧ x + sw > pp.x ∧
          z < pp.z + placedLength ∧ z + sl > pp.z then
        (min (x + sw) (pp.x + placedWidth) - max x pp.x) *
          (min (z + sl) (pp.z + placedLength) - max z pp.z)
      else 0
    else 0

/-- One placed skid's contribution to `maxWeightSupportOn`. -/
def capacityContrib (x z sw sl y : ℚ) (ps : Skid) : ℚ :=
  match ps.position with
  | none => 0
  | some pp =>
    if ps.isStackable then
      let placedWidth := effWidth ps pp
      let placedLength := effLength ps pp
      if pp.y + ps.height = y ∧ x < pp.x + placedWidth ∧ x + sw > pp.x ∧
          z < pp.z + placedLength ∧ z + sl > pp.z then
        let overlapArea := (min (x + sw) (pp.x + placedWidth) - max x pp.x) *
          (min (z + sl) (pp.z + placedLength) - max z pp.z)
        let supportProp := overlapArea / (placedWidth * placedLength)
        match ps.maxWeightOnTop with
        | some m => m * supportProp
        | none => ps.weight * 0.8 * supportProp
      else 0
    else 0

/-! ## Lemmas about the feasibility checker -/

/-- Unfolding characterization of a successful `canPlaceSkid` check:
the bounds hold, no placed skid intersects, and above floor level the
support-area and weight-capacity checks pass. -/
theorem canPlaceSkid_eq_true_iff (s : Skid) (p : Position) (ps : List Skid)
    (t : TruckDimensions) :
    canPlaceSkid s p ps t = true ↔
      (0 ≤ p.x ∧ 0 ≤ p.y ∧ 0 ≤ p.z ∧
        p.x + effWidth s p ≤ usableWidth t ∧
        p.y + s.height ≤ usableHeight t ∧
        p.z + effLength s p ≤ usableLength t) ∧
      (∀ q ∈ ps, intersectsB p.x p.y p.z (effWidth s p) s.height (effLength s p) q = false) ∧
      (0 < p.y →
        (¬(effWidth s p * effLength s p ≠ 0 ∧
          supportedAreaOn p.x p.z (effWidth s p) (effLength s p) p.y ps /
            (effWidth s p * effLength s p) < 0.7)) ∧
        s.weight ≤ maxWeightSupportOn p.x p.z (effWidth s p) (effLength s p) p.y ps) := by
  simp only [canPlaceSkid]
  split_ifs with h1 h2 h3 h4 h5
  · simp only [false_iff]
    rintro ⟨hb, -, -⟩
    rcases h1 with h | h | h | h | h | h <;> linarith [hb.1, hb.2.1, hb.2.2.1,
      hb.2.2.2.1, hb.2.2.2.2.1, hb.2.2.2.2.2]
  · simp only [false_iff]
    rintro ⟨-, hcol, -⟩
    obtain ⟨q, hq, hqi⟩ := List.any_eq_true.mp h2
    exact absurd (hcol q hq) (by simp [hqi])
  · simp only [false_iff]
    rintro ⟨-, -, hrest⟩
    exact absurd (hrest h3).1 (not_not_intro h4)
  · simp only [false_iff]
    rintro ⟨-, -, hrest⟩
    exact absurd (hrest h3).2 (not_le.mpr h5)
  · simp only [true_iff]
    push_neg at h1
    refine ⟨⟨h1.1, h1.2.1, h1.2.2.1, h1.2.2.2.1, h1.2.2.2.2.1, h1.2.2.2.2.2⟩, ?_, ?_⟩
    · intro q hq
      by_contra hqi
      exact h2 (List.any_eq_true.mpr ⟨q, hq, by simpa using hqi⟩)
    · exact fun _ => ⟨h4, not_lt.mp h5⟩
  · simp only [true_iff]
    push_neg at h1
    refine ⟨⟨h1.1, h1.2.1, h1.2.2.1, h1.2.2.2.1, h1.2.2.2.2.1, h1.2.2.2.2.2⟩, ?_, ?_⟩
    · intro q hq
      by_contra hqi
      exact h2 (List.any_eq_true.mpr ⟨q, hq, by simpa using hqi⟩)
    · exact fun hy => absurd hy h3

/-- Membership in `tryPositions` pins down the coordinates and the
rotation of a candidate, and certifies the feasibility check. -/
theorem mem_tryPositions {skid : Skid} {x y z : ℚ} {placed : List Skid}
    {t : TruckDimensions} {p : Position}
    (h : p ∈ tryPositions skid x y z placed t) :
    canPlaceSkid skid p placed t = true ∧ p.x = x ∧ p.y = y ∧ p.z = z ∧
      (p.rotation = 0 ∨ p.rotation = 90) := by
  simp only [tryPositions, List.mem_append] at h
  rcases h with h | h <;> split_ifs at h with hc <;>
    simp only [List.mem_singleton, List.not_mem_nil] at h <;> subst h <;>
    simp [hc]

/-- Membership in `findPossiblePositions` certifies the feasibility
check, and a fragile skid only receives floor-level candidates. -/
theorem mem_findPossiblePositions {skid : Skid} {placed : List Skid}
    {t : TruckDimensions} {p : Position}
    (h : p ∈ findPossiblePositions skid placed t) :
    canPlaceSkid skid p placed t = true ∧ (p.rotation = 0 ∨ p.rotation = 90) ∧
      (skid.isFragile = true → p.y = 0) := by
  simp only [findPossiblePositions, List.mem_append, List.mem_flatMap] at h
  rcases h with ⟨z, _, x, _, hp⟩ | h
  · obtain ⟨hcan, _, hy, _, hrot⟩ := mem_tryPositions hp
    exact ⟨hcan, hrot, fun _ => hy⟩
  · split_ifs at h with hf
    · simp at h
    · simp only [List.mem_flatMap] at h
      obtain ⟨ps, _, hp⟩ := h
      have hfr : skid.isFragile = false := by
        revert hf; cases skid.isFragile <;> simp
      rcases hpp : ps.position with _ | pp
      · rw [hpp] at hp; simp at hp
      · rw [hpp] at hp
        split_ifs at hp with hst
        · simp only [List.mem_flatMap] at hp
          obtain ⟨zo, _, xo, _, hp⟩ := hp
          obtain ⟨hcan, _, _, _, hrot⟩ := mem_tryPositions hp
          exact ⟨hcan, hrot, fun hc => by rw [hfr] at hc; cases hc⟩
        · simp at hp

/-- The best-position fold only returns its accumulator or an element
of the candidate list. -/
theorem pickBestAux_eq_some {skid : Skid} {placed : List Skid} {t : TruckDimensions} :
    ∀ (l : List Position) (acc : Option (Position × ℚ)) (pr : Position × ℚ),
      pickBestAux skid placed t acc l = some pr → acc = some pr ∨ pr.1 ∈ l := by
  intro l
  induction l with
  | nil =>
    intro acc pr h
    rcases acc with _ | pr0 <;> simp only [pickBestAux] at h <;> exact Or.inl h
  | cons p rest ih =>
    intro acc pr h
    rcases acc with _ | pr0
    · simp only [pickBestAux] at h
      rcases ih _ pr h with h' | h'
      · exact Or.inr (by simp only [Option.some_inj] at h'; rw [← h']; simp)
      · exact Or.inr (List.mem_cons_of_mem _ h')
    · simp only [pickBestAux] at h
      split_ifs at h with hgt
      · rcases ih _ pr h with h' | h'
        · exact Or.inr (by simp only [Option.some_inj] at h'; rw [← h']; simp)
        · exact Or.inr (List.mem_cons_of_mem _ h')
      · rcases ih _ pr h with h' | h'
        · exact Or.inl h'
        · exact Or.inr (List.mem_cons_of_mem _ h')

/-- A committed best position is one of the candidates. -/
theorem pickBest_mem {skid : Skid} {positions : List Position} {placed : List Skid}
    {t : TruckDimensions} {pr : Position × ℚ}
    (h : pickBest skid positions placed t = some pr) : pr.1 ∈ positions := by
  rcases pickBestAux_eq_some positions none pr h with h' | h'
  · cases h'
  · exact h'

/-- Induction principle for the greedy placement loop: any property of
the placed set that is preserved by committing one feasible candidate
of a pending skid holds for the final placed set. -/
theorem loadSkidsLoop_induction (t : TruckDimensions) (P : Skid → Prop)
    (motive : List Skid → Prop)
    (hstep : ∀ loaded skid p, P skid → motive loaded →
      p ∈ findPossiblePositions skid loaded t →
      motive (loaded ++ [{ skid with position := some p }])) :
    ∀ rest loaded, (∀ s ∈ rest, P s) → motive loaded →
      motive (loadSkidsLoop t rest loaded) := by
  intro rest
  induction rest with
  | nil => intro loaded _ hm; simpa [loadSkidsLoop] using hm
  | cons skid rest ih =>
    intro loaded hP hm
    simp only [loadSkidsLoop]
    rcases hpick : pickBest skid (findPossiblePositions skid loaded t) loaded t with _ | pr
    · exact ih loaded (fun s hs => hP s (List.mem_cons_of_mem _ hs)) hm
    · exact ih _ (fun s hs => hP s (List.mem_cons_of_mem _ hs))
        (hstep loaded skid pr.1 (hP skid (List.mem_cons_self _ _)) hm (pickBest_mem hpick))

end TruckLoading

namespace TruckLoading

/-- Projection of `optimizeLoading` to its placed list. -/
theorem optimizeLoading_loadedSkids (skids : List Skid) (t : TruckDimensions) :
    (optimizeLoading skids t).loadedSkids = loadSkidsLoop t (sortSkidsForLoading skids) [] := rfl

/-- Projection of `optimizeLoading` to its unloaded list. -/
theorem optimizeLoading_unloadedSkids (skids : List Skid) (t : TruckDimensions) :
    (optimizeLoading skids t).unloadedSkids =
      (sortSkidsForLoading skids).filter (fun skid =>
        !((loadSkidsLoop t (sortSkidsForLoading skids) []).any (fun l => l.id = skid.id))) := rfl

/-- A candidate that does not intersect a placed skid does not overlap
it in either orientation of the pair, once committed. -/
theorem skidsOverlapB_eq_false_of_intersectsB {skid q : Skid} {p : Position}
    (h : intersectsB p.x p.y p.z (effWidth skid p) skid.height (effLength skid p) q = false) :
    skidsOverlapB { skid with position := some p } q = false ∧
      skidsOverlapB q { skid with position := some p } = false := by
  rcases hq : q.position with _ | qq
  · constructor <;> simp [skidsOverlapB, hq]
  · rw [intersectsB, hq] at h
    simp only [decide_eq_false_iff_not] at h
    have heff : effWidth { skid with position := some p } p = effWidth skid p := by
      simp [effWidth]
    have heffl : effLength { skid with position := some p } p = effLength skid p := by
      simp [effLength]
    constructor <;> rw [skidsOverlapB] <;> simp only [hq] <;>
      simp only [decide_eq_false_iff_not, heff, heffl] <;>
      intro hc <;> apply h <;>
      exact ⟨by tauto, by tauto, by tauto, by tauto, by tauto, by tauto⟩

/-- Claim C1: in every plan returned by `optimizeLoading`, no two
distinct loaded skids' rotated axis-aligned boxes strictly overlap on
all three axes simultaneously (in either order of the pair). -/
theorem optimizeLoading_no_overlap (skids : List Skid) (t : TruckDimensions) :
    (optimizeLoading skids t).loadedSkids.Pairwise
      (fun a b => skidsOverlapB a b = false ∧ skidsOverlapB b a = false) := by
  rw [optimizeLoading_loadedSkids]
  refine loadSkidsLoop_induction t (fun _ => True)
    (fun loaded => loaded.Pairwise
      (fun a b => skidsOverlapB a b = false ∧ skidsOverlapB b a = false))
    ?_ (sortSkidsForLoading skids) [] (fun _ _ => trivial) (by simp)
  intro loaded skid p _ hm hmem
  have hcan := (mem_findPossiblePositions hmem).1
  have hcol := ((canPlaceSkid_eq_true_iff _ _ _ _).mp hcan).2.1
  rw [List.pairwise_append]
  refine ⟨hm, by simp, ?_⟩
  intro a ha b hb
  simp only [List.mem_singleton] at hb
  subst hb
  have h := skidsOverlapB_eq_false_of_intersectsB (hcol a ha)
  exact ⟨h.2, h.1⟩

end TruckLoading

namespace TruckLoading

/-- Every skid in a plan's placed list carries a position. -/
theorem optimizeLoading_positions_isSome (skids : List Skid) (t : TruckDimensions) :
    ∀ s ∈ (optimizeLoading skids t).loadedSkids, s.position.isSome = true := by
  rw [optimizeLoading_loadedSkids]
  refine loadSkidsLoop_induction t (fun _ => True)
    (fun loaded => ∀ s ∈ loaded, s.position.isSome = true)
    ?_ (sortSkidsForLoading skids) [] (fun _ _ => trivial) (by simp)
  intro loaded skid p _ hm hmem s hs
  rcases List.mem_append.mp hs with hs | hs
  · exact hm s hs
  · simp only [List.mem_singleton] at hs
    subst hs
    rfl

/-- Claim C4: every loaded skid lies fully inside the usable space:
`x, y, z ≥ 0`, `x + effectiveWidth ≤ usableWidth`,
`y + height ≤ usableHeight`, `z + effectiveLength ≤ usableLength`,
where the usable dimensions fall back to 95% of the outer width/length
and 75% of the outer height when the inner ones are absent. -/
theorem optimizeLoading_within_bounds (skids : List Skid) (t : TruckDimensions) :
    ∀ s ∈ (optimizeLoading skids t).loadedSkids, withinBoundsB t s = true := by
  rw [optimizeLoading_loadedSkids]
  refine loadSkidsLoop_induction t (fun _ => True)
    (fun loaded => ∀ s ∈ loaded, withinBoundsB t s = true)
    ?_ (sortSkidsForLoading skids) [] (fun _ _ => trivial) (by simp)
  intro loaded skid p _ hm hmem s hs
  rcases List.mem_append.mp hs with hs | hs
  · exact hm s hs
  · simp only [List.mem_singleton] at hs
    subst hs
    have hb := ((canPlaceSkid_eq_true_iff _ _ _ _).mp (mem_findPossiblePositions hmem).1).1
    rw [withinBoundsB]
    simp only [decide_eq_true_eq]
    have heff : effWidth { skid with position := some p } p = effWidth skid p := by
      simp [effWidth]
    have heffl : effLength { skid with position := some p } p = effLength skid p := by
      simp [effLength]
    rw [heff, heffl]
    exact hb

/-- Witness for C4 at a concrete input: the single placed skid of a
one-skid plan is within bounds. -/
theorem optimizeLoading_within_bounds_witness :
    { exSkidZ with position := some ⟨0, 0, 0, 0⟩ } ∈
        (optimizeLoading [exSkidZ] exTruck).loadedSkids ∧
      withinBoundsB exTruck { exSkidZ with position := some ⟨0, 0, 0, 0⟩ } = true :=
  have hmem : { exSkidZ with position := some ⟨0, 0, 0, 0⟩ } ∈
      (optimizeLoading [exSkidZ] exTruck).loadedSkids := by
    with_unfolding_all decide
  ⟨hmem, optimizeLoading_within_bounds [exSkidZ] exTruck _ hmem⟩

/-- The amended claim C3: the candidate generator suppresses stacked
positions only when the skid *being placed* is fragile, so every loaded
fragile skid sits on the floor (`y = 0`); it does not prevent skids
from resting on top of fragile stackable skids. -/
theorem optimizeLoading_fragile_on_floor (skids : List Skid) (t : TruckDimensions) :
    ∀ s ∈ (optimizeLoading skids t).loadedSkids, s.isFragile = true →
      ∀ p, s.position = some p → p.y = 0 := by
  rw [optimizeLoading_loadedSkids]
  refine loadSkidsLoop_induction t (fun _ => True)
    (fun loaded => ∀ s ∈ loaded, s.isFragile = true → ∀ p, s.position = some p → p.y = 0)
    ?_ (sortSkidsForLoading skids) [] (fun _ _ => trivial) (by simp)
  intro loaded skid p _ hm hmem s hs hfr q hq
  rcases List.mem_append.mp hs with hs | hs
  · exact hm s hs hfr q hq
  · simp only [List.mem_singleton] at hs
    subst hs
    have : skid.isFragile = true := hfr
    have hy := (mem_findPossiblePositions hmem).2.2 this
    simp only [Option.some_inj] at hq
    rw [← hq]
    exact hy

end TruckLoading

namespace TruckLoading

/-- Counterexample to claim C3 as stated: with a fragile-but-stackable
skid on the floor and a second skid that fits nowhere else, the engine
places the second skid directly on top of the fragile one, so the
"nothing rests on a fragile skid" property is false for this plan. -/
theorem noSkidRestsOnFragileB_counterexample :
    noSkidRestsOnFragileB (optimizeLoading [exSkidA, exSkidB] exTruck) = false := by
  with_unfolding_all decide

/-- Witness for the amended claim C3 at a concrete input: the fragile
skid of the two-skid plan is loaded, and the theorem places it on the
floor. -/
theorem optimizeLoading_fragile_on_floor_witness :
    { exSkidA with position := some ⟨0, 0, 0, 0⟩ } ∈
        (optimizeLoading [exSkidA, exSkidB] exTruck).loadedSkids ∧
      (⟨0, 0, 0, 0⟩ : Position).y = 0 :=
  have hmem : { exSkidA with position := some ⟨0, 0, 0, 0⟩ } ∈
      (optimizeLoading [exSkidA, exSkidB] exTruck).loadedSkids := by
    with_unfolding_all decide
  ⟨hmem, optimizeLoading_fragile_on_floor [exSkidA, exSkidB] exTruck _ hmem rfl _ rfl⟩

/-- The contact-bonus fold of `scorePosition` counts the placed skids
in contact. -/
theorem contact_foldl_eq_countP (skid : Skid) (position : Position) :
    ∀ (l : List Skid) (c : ℚ),
      l.foldl (fun acc ps => if inContactWith skid position ps then acc + 1 else acc) c =
        c + (l.countP (fun ps => inContactWith skid position ps) : ℚ) := by
  intro l
  induction l with
  | nil => intro c; simp
  | cons q rest ih =>
    intro c
    simp only [List.foldl_cons, List.countP_cons]
    split_ifs with h
    · rw [ih]
      push_cast
      ring
    · rw [ih]
      push_cast
      ring

/-- Counterexample to claim C7 as stated: at a rotated position the
source's wall-contact test uses the raw `skid.width` with a `>=`
comparison, not the rotated footprint with equality, so the claimed
formula disagrees with `scorePosition`. -/
theorem scorePosition_claimed_formula_counterexample :
    scorePosition exSkidScore exPosScore [] exTruckScore ≠
      claimedScorePosition exSkidScore exPosScore [] exTruckScore := by
  with_unfolding_all decide

/-- The amended claim C7: `scorePosition` equals the closed-form sum
with the wall-contact and balance terms computed from the raw
(unrotated) `skid.width`/`skid.length` and `≥` wall comparisons. -/
theorem scorePosition_closed_form (skid : Skid) (position : Position)
    (placedSkids : List Skid) (truckDimensions : TruckDimensions) :
    scorePosition skid position placedSkids truckDimensions =
      amendedScorePosition skid position placedSkids truckDimensions := by
  rw [scorePosition, amendedScorePosition, contact_foldl_eq_countP]
  rw [PRIORITY_WEIGHT]
  ring

/-- Claim C8 (code behavior at the failing input): a container with no
inner dimensions, no cubic capacity and outer width 0 has derived
usable volume 0, and `calculateSpaceUtilization` divides by it,
producing a non-finite result (`none`), not the claimed 0%. -/
theorem calculateSpaceUtilization_zero_volume_bug :
    truckUsableVolume exTruckZeroVol = 0 ∧
      calculateSpaceUtilization [] exTruckZeroVol = none ∧
      (optimizeLoading [] exTruckZeroVol).spaceUtilization = none := by
  refine ⟨?_, ?_, ?_⟩ <;> with_unfolding_all decide

/-- Counterexample to claim C6 as stated: a plan with one loaded skid
of weight 0 has a non-empty placed list, yet all five percentages are 0
(the code guards on `totalWeight > 0`), so front+middle+back ≠ 100. -/
theorem weightDistribution_counterexample :
    (optimizeLoading [exSkidZ] exTruck).loadedSkids ≠ [] ∧
      (optimizeLoading [exSkidZ] exTruck).weightDistribution.front +
        (optimizeLoading [exSkidZ] exTruck).weightDistribution.middle +
        (optimizeLoading [exSkidZ] exTruck).weightDistribution.back ≠ 100 := by
  refine ⟨?_, ?_⟩ <;> with_unfolding_all decide

end TruckLoading

namespace TruckLoading

/-- The ids of the final placed list extend the initial placed list's
ids by a sublist of the pending skids' ids (the loop visits each skid
once and commits at most one clone of it). -/
theorem loadSkidsLoop_ids (t : TruckDimensions) :
    ∀ (rest loaded : List Skid), ∃ extra : List String,
      (loadSkidsLoop t rest loaded).map Skid.id = loaded.map Skid.id ++ extra ∧
        List.Sublist extra (rest.map Skid.id) := by
  intro rest
  induction rest with
  | nil => intro loaded; exact ⟨[], by simp [loadSkidsLoop], List.nil_sublist _⟩
  | cons skid rest ih =>
    intro loaded
    simp only [loadSkidsLoop]
    rcases hpick : pickBest skid (findPossiblePositions skid loaded t) loaded t with _ | pr
    · obtain ⟨extra, he, hs⟩ := ih loaded
      exact ⟨extra, he, hs.cons _⟩
    · obtain ⟨extra, he, hs⟩ := ih (loaded ++ [{ skid with position := some pr.1 }])
      refine ⟨skid.id :: extra, ?_, List.Sublist.cons₂ _ hs⟩
      rw [he]
      simp

/-- Filtering a duplicate-free list by membership of a sub-id-list
recovers exactly that many elements. -/
theorem length_filter_mem_of_sublist :
    ∀ (l : List Skid) (ids : List String), List.Sublist ids (l.map Skid.id) →
      (l.map Skid.id).Nodup →
      (l.filter (fun s => decide (s.id ∈ ids))).length = ids.length := by
  intro l
  induction l with
  | nil =>
    intro ids hsub _
    have hid : ids = [] := List.sublist_nil.mp (by simpa using hsub)
    subst hid
    simp
  | cons s rest ih =>
    intro ids hsub hnd
    simp only [List.map_cons, List.nodup_cons] at hnd
    rcases List.sublist_cons_iff.mp hsub with h | ⟨r, rfl, hr⟩
    · have hnotmem : s.id ∉ ids := fun hm => hnd.1 (h.subset hm)
      rw [List.filter_cons]
      simp only [hnotmem, decide_False]
      simpa using ih ids h hnd.2
    · have hdec : decide (s.id ∈ s.id :: r) = true := by simp
      rw [List.filter_cons, hdec]
      have hcongr : rest.filter (fun x => decide (x.id ∈ s.id :: r)) =
          rest.filter (fun x => decide (x.id ∈ r)) := by
        apply List.filter_congr
        intro x hx
        have hne : x.id ≠ s.id := by
          intro he
          exact hnd.1 (he ▸ List.mem_map_of_mem Skid.id hx)
        simp [List.mem_cons, hne]
      simp only [if_true, List.length_cons, hcongr, ih r hr hnd.2]

/-- Claim C5: with pairwise-distinct input ids, the loaded and unloaded
lists partition the input: their lengths sum to the input length and no
id appears in both. -/
theorem optimizeLoading_conservation (skids : List Skid) (t : TruckDimensions)
    (h : (skids.map Skid.id).Nodup) :
    (optimizeLoading skids t).loadedSkids.length +
        (optimizeLoading skids t).unloadedSkids.length = skids.length ∧
      ∀ i, i ∈ (optimizeLoading skids t).loadedSkids.map Skid.id →
        i ∉ (optimizeLoading skids t).unloadedSkids.map Skid.id := by
  have hperm : List.Perm (sortSkidsForLoading skids) skids := List.perm_insertionSort _ _
  have hnd : ((sortSkidsForLoading skids).map Skid.id).Nodup :=
    ((hperm.map Skid.id).nodup_iff).mpr h
  obtain ⟨extra, hids, hsub⟩ := loadSkidsLoop_ids t (sortSkidsForLoading skids) []
  simp only [List.map_nil, List.nil_append] at hids
  have hpred : ∀ s ∈ sortSkidsForLoading skids,
      ((loadSkidsLoop t (sortSkidsForLoading skids) []).any (fun l => l.id = s.id)) =
        decide (s.id ∈ extra) := by
    intro s _
    by_cases hmem : s.id ∈ extra
    · rw [← hids] at hmem
      obtain ⟨l, hl, hlid⟩ := List.mem_map.mp hmem
      simp only [hmem, ← hids, decide_True]
      exact List.any_eq_true.mpr ⟨l, hl, by simp [hlid]⟩
    · simp only [hmem, decide_False]
      rw [List.any_eq_false]
      intro l hl
      simp only [decide_eq_true_eq]
      intro he
      exact hmem (hids ▸ (he ▸ List.mem_map_of_mem Skid.id hl))
  have hfilter : (optimizeLoading skids t).unloadedSkids =
      (sortSkidsForLoading skids).filter (fun s => !decide (s.id ∈ extra)) := by
    rw [optimizeLoading_unloadedSkids]
    apply List.filter_congr
    intro x hx
    rw [hpred x hx]
  have hcount : ((sortSkidsForLoading skids).filter
      (fun s => decide (s.id ∈ extra))).length = extra.length :=
    length_filter_mem_of_sublist _ extra hsub hnd
  have hsplit := List.length_eq_length_filter_add
    (l := sortSkidsForLoading skids) (fun s => decide (s.id ∈ extra))
  constructor
  · have hlen : (optimizeLoading skids t).loadedSkids.length = extra.length := by
      rw [optimizeLoading_loadedSkids, ← List.length_map _ Skid.id, hids]
    rw [hlen, hfilter]
    have : ((sortSkidsForLoading skids).filter (fun s => !decide (s.id ∈ extra))).length =
        (sortSkidsForLoading skids).length - extra.length := by
      omega
    rw [this]
    have hle : extra.length ≤ (sortSkidsForLoading skids).length := by omega
    rw [← hperm.length_eq]
    omega
  · intro i hiL hiU
    rw [optimizeLoading_loadedSkids, hids] at hiL
    rw [hfilter] at hiU
    obtain ⟨u, hu, huid⟩ := List.mem_map.mp hiU
    have := (List.mem_filter.mp hu).2
    simp only [Bool.not_eq_true', decide_eq_false_iff_not] at this
    exact this (huid ▸ hiL)

/-- Witness for C5 at a concrete input: the two-skid plan loads both
skids and strands none, and the id lists are disjoint. -/
theorem optimizeLoading_conservation_witness :
    (([exSkidA, exSkidB].map Skid.id).Nodup) ∧
      ((optimizeLoading [exSkidA, exSkidB] exTruck).loadedSkids.length +
          (optimizeLoading [exSkidA, exSkidB] exTruck).unloadedSkids.length =
        ([exSkidA, exSkidB] : List Skid).length ∧
        ∀ i, i ∈ (optimizeLoading [exSkidA, exSkidB] exTruck).loadedSkids.map Skid.id →
          i ∉ (optimizeLoading [exSkidA, exSkidB] exTruck).unloadedSkids.map Skid.id) :=
  ⟨by decide, optimizeLoading_conservation [exSkidA, exSkidB] exTruck (by decide)⟩

end TruckLoading

namespace TruckLoading

/-- Projection of `optimizeLoading` to its weight distribution. -/
theorem optimizeLoading_weightDistribution (skids : List Skid) (t : TruckDimensions) :
    (optimizeLoading skids t).weightDistribution =
      calculateWeightDistribution (loadSkidsLoop t (sortSkidsForLoading skids) []) t := rfl

/-- Projection of `optimizeLoading` to its total weight. -/
theorem optimizeLoading_totalWeight (skids : List Skid) (t : TruckDimensions) :
    (optimizeLoading skids t).totalWeight =
      (loadSkidsLoop t (sortSkidsForLoading skids) []).foldl
        (fun sum skid => sum + skid.weight) 0 := rfl

/-- Each `forEach` iteration adds the skid's weight to the total and to
exactly one depth bucket and one side bucket, so the bucket sums track
the total. -/
theorem wd_foldl_inv (t : TruckDimensions) :
    ∀ (l : List Skid) (acc : WDTotals),
      ((l.foldl (wdStep t) acc).front + (l.foldl (wdStep t) acc).middle +
          (l.foldl (wdStep t) acc).back) - (l.foldl (wdStep t) acc).total =
        (acc.front + acc.middle + acc.back) - acc.total ∧
      ((l.foldl (wdStep t) acc).left + (l.foldl (wdStep t) acc).right) -
          (l.foldl (wdStep t) acc).total =
        (acc.left + acc.right) - acc.total := by
  intro l
  induction l with
  | nil => intro acc; exact ⟨rfl, rfl⟩
  | cons s rest ih =>
    intro acc
    simp only [List.foldl_cons]
    obtain ⟨ih1, ih2⟩ := ih (wdStep t acc s)
    have hstep : ((wdStep t acc s).front + (wdStep t acc s).middle +
          (wdStep t acc s).back) - (wdStep t acc s).total =
        (acc.front + acc.middle + acc.back) - acc.total ∧
        ((wdStep t acc s).left + (wdStep t acc s).right) - (wdStep t acc s).total =
        (acc.left + acc.right) - acc.total := by
      rcases hp : s.position with _ | p
      · simp [wdStep, hp]
      · simp only [wdStep, hp]
        split_ifs <;> constructor <;> simp <;> ring
    exact ⟨ih1.trans hstep.1, ih2.trans hstep.2⟩

/-- Folding the weight sum from an arbitrary start. -/
theorem foldl_weight_sum :
    ∀ (l : List Skid) (c : ℚ),
      l.foldl (fun sum s => sum + s.weight) c = c + (l.map Skid.weight).sum := by
  intro l
  induction l with
  | nil => intro c; simp
  | cons s rest ih =>
    intro c
    simp only [List.foldl_cons, List.map_cons, List.sum_cons, ih]
    ring

/-- When every skid carries a position, the distribution total is the
sum of the weights. -/
theorem wd_foldl_total (t : TruckDimensions) :
    ∀ (l : List Skid) (acc : WDTotals), (∀ s ∈ l, s.position.isSome = true) →
      (l.foldl (wdStep t) acc).total = acc.total + (l.map Skid.weight).sum := by
  intro l
  induction l with
  | nil => intro acc _; simp
  | cons s rest ih =>
    intro acc hpos
    simp only [List.foldl_cons, List.map_cons, List.sum_cons]
    rw [ih (wdStep t acc s) (fun q hq => hpos q (List.mem_cons_of_mem _ hq))]
    have : (wdStep t acc s).total = acc.total + s.weight := by
      have := hpos s (List.mem_cons_self _ _)
      rcases hp : s.position with _ | p
      · rw [hp] at this; simp at this
      · simp only [wdStep, hp]
        split_ifs <;> simp
    rw [this]
    ring

/-- The amended claim C6: whenever the total loaded weight is positive,
the front/middle/back percentages sum to exactly 100, and left/right
sum to exactly 100; when nothing is loaded (and in fact whenever the
total weight is not positive, e.g. all-zero weights) all five
percentages are 0, with no division by zero. -/
theorem optimizeLoading_weightDistribution_sums (skids : List Skid) (t : TruckDimensions) :
    (0 < (optimizeLoading skids t).totalWeight →
      (optimizeLoading skids t).weightDistribution.front +
          (optimizeLoading skids t).weightDistribution.middle +
          (optimizeLoading skids t).weightDistribution.back = 100 ∧
        (optimizeLoading skids t).weightDistribution.left +
          (optimizeLoading skids t).weightDistribution.right = 100) ∧
      ((optimizeLoading skids t).loadedSkids = [] →
        (optimizeLoading skids t).weightDistribution.front = 0 ∧
        (optimizeLoading skids t).weightDistribution.middle = 0 ∧
        (optimizeLoading skids t).weightDistribution.back = 0 ∧
        (optimizeLoading skids t).weightDistribution.left = 0 ∧
        (optimizeLoading skids t).weightDistribution.right = 0) := by
  have hpos := optimizeLoading_positions_isSome skids t
  rw [optimizeLoading_loadedSkids] at hpos
  set L := loadSkidsLoop t (sortSkidsForLoading skids) [] with hL
  set totals := L.foldl (wdStep t) ⟨0, 0, 0, 0, 0, 0⟩ with htotals
  have htot : totals.total = (L.map Skid.weight).sum := by
    rw [htotals, wd_foldl_total t L _ hpos]
    norm_num
  have hplanw : (optimizeLoading skids t).totalWeight = (L.map Skid.weight).sum := by
    rw [optimizeLoading_totalWeight, ← hL, foldl_weight_sum]
    ring
  obtain ⟨hfmb, hlr⟩ := wd_foldl_inv t L ⟨0, 0, 0, 0, 0, 0⟩
  rw [← htotals] at hfmb hlr
  constructor
  · intro hw
    rw [hplanw, ← htot] at hw
    have hT : totals.total ≠ 0 := ne_of_gt hw
    have h1 : totals.front + totals.middle + totals.back = totals.total := by
      have : (0 : ℚ) + 0 + 0 - 0 = 0 := by ring
      rw [this] at hfmb
      linarith [hfmb]
    have h2 : totals.left + totals.right = totals.total := by
      have : (0 : ℚ) + 0 - 0 = 0 := by ring
      rw [this] at hlr
      linarith [hlr]
    rw [optimizeLoading_weightDistribution, ← hL]
    simp only [calculateWeightDistribution, ← htotals]
    rw [if_pos hw, if_pos hw, if_pos hw, if_pos hw, if_pos hw]
    constructor
    · field_simp
      linarith
    · field_simp
      linarith
  · intro hempty
    rw [optimizeLoading_loadedSkids, ← hL] at hempty
    rw [optimizeLoading_weightDistribution, ← hL]
    simp only [calculateWeightDistribution, hempty]
    norm_num

/-- Witness for the amended claim C6 at a concrete input: the two-skid
plan has positive total weight and its percentages sum to 100/100. -/
theorem optimizeLoading_weightDistribution_sums_witness :
    (0 < (optimizeLoading [exSkidA, exSkidB] exTruck).totalWeight) ∧
      ((optimizeLoading [exSkidA, exSkidB] exTruck).weightDistribution.front +
          (optimizeLoading [exSkidA, exSkidB] exTruck).weightDistribution.middle +
          (optimizeLoading [exSkidA, exSkidB] exTruck).weightDistribution.back = 100 ∧
        (optimizeLoading [exSkidA, exSkidB] exTruck).weightDistribution.left +
          (optimizeLoading [exSkidA, exSkidB] exTruck).weightDistribution.right = 100) :=
  have hw : 0 < (optimizeLoading [exSkidA, exSkidB] exTruck).totalWeight := by
    with_unfolding_all decide
  ⟨hw, (optimizeLoading_weightDistribution_sums [exSkidA, exSkidB] exTruck).1 hw⟩

end TruckLoading

namespace TruckLoading

/-- Mapping an enumerated list by a function of the element alone
forgets the indices. -/
theorem map_enumFrom_snd {α β : Type} (g : α → β) :
    ∀ (n : ℕ) (l : List α), (l.enumFrom n).map (fun pr => g pr.2) = l.map g := by
  intro n l
  induction l generalizing n with
  | nil => rfl
  | cons a rest ih => simp only [List.enumFrom_cons, List.map_cons, ih]

/-- The id/position content of the generated steps is the sorted,
position-carrying sublist of the loaded skids. -/
theorem generateLoadingSequence_steps_map (loadedSkids : List Skid) :
    (generateLoadingSequence loadedSkids).steps.map (fun st => (st.skidId, st.position)) =
      ((loadedSkids.filter (fun s => s.position.isSome)).insertionSort loadOrderLE).map
        (fun s => (s.id, s.position.getD default)) := by
  simp only [generateLoadingSequence, List.map_map, List.enum]
  exact map_enumFrom_snd (fun s : Skid => (s.id, s.position.getD default)) 0 _

/-- The positions of the generated steps, in order. -/
theorem generateLoadingSequence_steps_positions (loadedSkids : List Skid) :
    (generateLoadingSequence loadedSkids).steps.map LoadingStep.position =
      ((loadedSkids.filter (fun s => s.position.isSome)).insertionSort loadOrderLE).map
        (fun s => s.position.getD default) := by
  simp only [generateLoadingSequence, List.map_map, List.enum]
  exact map_enumFrom_snd (fun s : Skid => s.position.getD default) 0 _

/-- Claim C9: for a plan whose loaded skids all carry positions (as
every plan produced by `optimizeLoading` does),
`generateLoadingInstructions` emits exactly one step per loaded skid,
each carrying that skid's id and final position; the steps are sorted
by `y` ascending with ties by `z` ascending; and the sort is stable:
any two loaded skids in comparator order keep their relative order. -/
theorem generateLoadingInstructions_spec (plan : LoadingPlan)
    (hpos : ∀ s ∈ plan.loadedSkids, s.position.isSome = true) :
    (generateLoadingInstructions plan).steps.length = plan.loadedSkids.length ∧
      List.Perm
        ((generateLoadingInstructions plan).steps.map (fun st => (st.skidId, st.position)))
        (plan.loadedSkids.map (fun s => (s.id, s.position.getD default))) ∧
      ((generateLoadingInstructions plan).steps.map LoadingStep.position).Pairwise
        (fun p q => p.y < q.y ∨ (p.y = q.y ∧ p.z ≤ q.z)) ∧
      ∀ a b : Skid, List.Sublist [a, b] plan.loadedSkids → loadOrderLE a b →
        List.Sublist [(a.id, a.position.getD default), (b.id, b.position.getD default)]
          ((generateLoadingInstructions plan).steps.map (fun st => (st.skidId, st.position))) := by
  have hfilter : plan.loadedSkids.filter (fun s => s.position.isSome) = plan.loadedSkids :=
    List.filter_eq_self.mpr hpos
  refine ⟨?_, ?_, ?_, ?_⟩
  · simp only [generateLoadingInstructions, generateLoadingSequence, List.length_map,
      List.enum, List.enumFrom_length, List.length_insertionSort, hfilter]
  · rw [generateLoadingInstructions, generateLoadingSequence_steps_map, hfilter]
    exact (List.perm_insertionSort loadOrderLE plan.loadedSkids).map _
  · rw [generateLoadingInstructions, generateLoadingSequence_steps_positions, hfilter]
    rw [List.pairwise_map]
    exact List.sorted_insertionSort loadOrderLE plan.loadedSkids
  · intro a b hab hle
    rw [generateLoadingInstructions, generateLoadingSequence_steps_map, hfilter]
    exact List.Sublist.map (fun s : Skid => (s.id, s.position.getD default))
      (List.pair_sublist_insertionSort hle hab)

/-- Witness for C9 at a concrete input: the two-skid plan, whose loaded
skids all carry positions. -/
theorem generateLoadingInstructions_spec_witness :
    (∀ s ∈ (optimizeLoading [exSkidA, exSkidB] exTruck).loadedSkids,
        s.position.isSome = true) ∧
      (generateLoadingInstructions (optimizeLoading [exSkidA, exSkidB] exTruck)).steps.length =
        (optimizeLoading [exSkidA, exSkidB] exTruck).loadedSkids.length :=
  have hpos : ∀ s ∈ (optimizeLoading [exSkidA, exSkidB] exTruck).loadedSkids,
      s.position.isSome = true := by
    with_unfolding_all decide
  ⟨hpos, (generateLoadingInstructions_spec (optimizeLoading [exSkidA, exSkidB] exTruck) hpos).1⟩

end TruckLoading

namespace TruckLoading

/-- The falsy fallback cannot distinguish `some 0` from `none`. -/
theorem jsOrQ_eraseZero (o : Option ℚ) (d : ℚ) : jsOrQ (eraseZeroOpt o) d = jsOrQ o d := by
  rcases o with _ | v
  · rfl
  · rw [eraseZeroOpt]
    split_ifs with h <;> simp [jsOrQ, h]

/-- Usable width is unchanged by erasing zero inner dimensions. -/
theorem usableWidth_eraseZero (t : TruckDimensions) :
    usableWidth (zeroInsideErased t) = usableWidth t := by
  rw [usableWidth, usableWidth, zeroInsideErased]
  exact jsOrQ_eraseZero _ _

/-- Usable height is unchanged by erasing zero inner dimensions. -/
theorem usableHeight_eraseZero (t : TruckDimensions) :
    usableHeight (zeroInsideErased t) = usableHeight t := by
  rw [usableHeight, usableHeight, zeroInsideErased]
  exact jsOrQ_eraseZero _ _

/-- Usable length is unchanged by erasing zero inner dimensions. -/
theorem usableLength_eraseZero (t : TruckDimensions) :
    usableLength (zeroInsideErased t) = usableLength t := by
  rw [usableLength, usableLength, zeroInsideErased]
  exact jsOrQ_eraseZero _ _

/-- The derived container volume is unchanged by erasing a zero cubic
capacity and zero inner dimensions. -/
theorem truckUsableVolume_eraseZero (t : TruckDimensions) :
    truckUsableVolume (zeroInsideErased t) = truckUsableVolume t := by
  rw [truckUsableVolume, truckUsableVolume, usableWidth_eraseZero, usableHeight_eraseZero,
    usableLength_eraseZero]
  rw [show (zeroInsideErased t).cubicCapacity = eraseZeroOpt t.cubicCapacity from rfl]
  exact jsOrQ_eraseZero _ _

/-- `canPlaceSkid` cannot distinguish zero inner dimensions from absent
ones. -/
theorem canPlaceSkid_eraseZero (s : Skid) (p : Position) (ps : List Skid)
    (t : TruckDimensions) :
    canPlaceSkid s p ps (zeroInsideErased t) = canPlaceSkid s p ps t := by
  simp only [canPlaceSkid, usableWidth_eraseZero, usableHeight_eraseZero,
    usableLength_eraseZero]

/-- `tryPositions` cannot distinguish zero inner dimensions from absent
ones. -/
theorem tryPositions_eraseZero (s : Skid) (x y z : ℚ) (ps : List Skid)
    (t : TruckDimensions) :
    tryPositions s x y z ps (zeroInsideErased t) = tryPositions s x y z ps t := by
  simp only [tryPositions, canPlaceSkid_eraseZero]

/-- `findPossiblePositions` cannot distinguish zero inner dimensions
from absent ones. -/
theorem findPossiblePositions_eraseZero (s : Skid) (ps : List Skid) (t : TruckDimensions) :
    findPossiblePositions s ps (zeroInsideErased t) = findPossiblePositions s ps t := by
  simp only [findPossiblePositions, usableWidth_eraseZero, usableLength_eraseZero,
    tryPositions_eraseZero]

/-- `scorePosition` cannot distinguish zero inner dimensions from
absent ones. -/
theorem scorePosition_eraseZero (s : Skid) (p : Position) (ps : List Skid)
    (t : TruckDimensions) :
    scorePosition s p ps (zeroInsideErased t) = scorePosition s p ps t := by
  simp only [scorePosition, usableWidth_eraseZero, usableLength_eraseZero]

/-- The best-position fold cannot distinguish zero inner dimensions
from absent ones. -/
theorem pickBestAux_eraseZero (s : Skid) (ps : List Skid) (t : TruckDimensions) :
    ∀ (l : List Position) (acc : Option (Position × ℚ)),
      pickBestAux s ps (zeroInsideErased t) acc l = pickBestAux s ps t acc l := by
  intro l
  induction l with
  | nil => intro acc; rcases acc with _ | pr <;> rfl
  | cons p rest ih =>
    intro acc
    rcases acc with _ | pr <;>
      simp only [pickBestAux, scorePosition_eraseZero, ih]

/-- `pickBest` cannot distinguish zero inner dimensions from absent
ones. -/
theorem pickBest_eraseZero (s : Skid) (positions : List Position) (ps : List Skid)
    (t : TruckDimensions) :
    pickBest s positions ps (zeroInsideErased t) = pickBest s positions ps t := by
  rw [pickBest, pickBest, pickBestAux_eraseZero]

/-- The placement loop cannot distinguish zero inner dimensions from
absent ones. -/
theorem loadSkidsLoop_eraseZero (t : TruckDimensions) :
    ∀ (rest loaded : List Skid),
      loadSkidsLoop (zeroInsideErased t) rest loaded = loadSkidsLoop t rest loaded := by
  intro rest
  induction rest with
  | nil => intro loaded; rfl
  | cons skid rest ih =>
    intro loaded
    simp only [loadSkidsLoop, findPossiblePositions_eraseZero, pickBest_eraseZero]
    rcases pickBest skid (findPossiblePositions skid loaded t) loaded t with _ | pr <;>
      simp only [ih]

/-- `wdStep` cannot distinguish zero inner dimensions from absent
ones. -/
theorem wdStep_eraseZero (t : TruckDimensions) (acc : WDTotals) (s : Skid) :
    wdStep (zeroInsideErased t) acc s = wdStep t acc s := by
  simp only [wdStep, usableWidth_eraseZero, usableLength_eraseZero]

/-- `calculateWeightDistribution` cannot distinguish zero inner
dimensions from absent ones. -/
theorem calculateWeightDistribution_eraseZero (l : List Skid) (t : TruckDimensions) :
    calculateWeightDistribution l (zeroInsideErased t) = calculateWeightDistribution l t := by
  have hstep : wdStep (zeroInsideErased t) = wdStep t :=
    funext fun acc => funext fun s => wdStep_eraseZero t acc s
  rw [calculateWeightDistribution, calculateWeightDistribution, hstep]

/-- `calculateSpaceUtilization` cannot distinguish zero inner
dimensions (or a zero cubic capacity) from absent ones. -/
theorem calculateSpaceUtilization_eraseZero (l : List Skid) (t : TruckDimensions) :
    calculateSpaceUtilization l (zeroInsideErased t) = calculateSpaceUtilization l t := by
  simp only [calculateSpaceUtilization, truckUsableVolume_eraseZero]

/-- Claim C10: a container field that is present but zero is treated
exactly as if it were absent: the feasibility check, the candidate
generator, the weight distribution and the space utilization (and
hence every computed field of the returned plan) are unchanged when
every `some 0` among `insideWidth`, `insideHeight`, `insideLength` and
`cubicCapacity` is replaced by `none`. -/
theorem optimizeLoading_zeroInside_eq_absent (s : Skid) (p : Position) (ps : List Skid)
    (skids : List Skid) (t : TruckDimensions) :
    canPlaceSkid s p ps (zeroInsideErased t) = canPlaceSkid s p ps t ∧
      findPossiblePositions s ps (zeroInsideErased t) = findPossiblePositions s ps t ∧
      calculateWeightDistribution ps (zeroInsideErased t) = calculateWeightDistribution ps t ∧
      calculateSpaceUtilization ps (zeroInsideErased t) = calculateSpaceUtilization ps t ∧
      (optimizeLoading skids (zeroInsideErased t)).loadedSkids =
        (optimizeLoading skids t).loadedSkids ∧
      (optimizeLoading skids (zeroInsideErased t)).unloadedSkids =
        (optimizeLoading skids t).unloadedSkids ∧
      (optimizeLoading skids (zeroInsideErased t)).spaceUtilization =
        (optimizeLoading skids t).spaceUtilization ∧
      (optimizeLoading skids (zeroInsideErased t)).totalWeight =
        (optimizeLoading skids t).totalWeight ∧
      (optimizeLoading skids (zeroInsideErased t)).weightDistribution =
        (optimizeLoading skids t).weightDistribution := by
  have hloaded : (optimizeLoading skids (zeroInsideErased t)).loadedSkids =
      (optimizeLoading skids t).loadedSkids := by
    rw [optimizeLoading_loadedSkids, optimizeLoading_loadedSkids, loadSkidsLoop_eraseZero]
  refine ⟨canPlaceSkid_eraseZero s p ps t, findPossiblePositions_eraseZero s ps t,
    calculateWeightDistribution_eraseZero ps t, calculateSpaceUtilization_eraseZero ps t,
    hloaded, ?_, ?_, ?_, ?_⟩
  · rw [optimizeLoading_unloadedSkids, optimizeLoading_unloadedSkids, loadSkidsLoop_eraseZero]
  · show calculateSpaceUtilization (loadSkidsLoop (zeroInsideErased t)
        (sortSkidsForLoading skids) []) (zeroInsideErased t) = _
    rw [loadSkidsLoop_eraseZero, calculateSpaceUtilization_eraseZero]
    rfl
  · show (loadSkidsLoop (zeroInsideErased t) (sortSkidsForLoading skids) []).foldl
        (fun sum skid => sum + skid.weight) 0 = _
    rw [loadSkidsLoop_eraseZero]
    rfl
  · show calculateWeightDistribution (loadSkidsLoop (zeroInsideErased t)
        (sortSkidsForLoading skids) []) (zeroInsideErased t) = _
    rw [loadSkidsLoop_eraseZero, calculateWeightDistribution_eraseZero]
    rfl

end TruckLoading

namespace TruckLoading

/-- The rotated footprint width is positive for positive dimensions. -/
theorem effWidth_pos {s : Skid} {p : Position} (h1 : 0 < s.width) (h2 : 0 < s.length) :
    0 < effWidth s p := by
  rw [effWidth]
  split_ifs <;> assumption

/-- The rotated footprint length is positive for positive dimensions. -/
theorem effLength_pos {s : Skid} {p : Position} (h1 : 0 < s.width) (h2 : 0 < s.length) :
    0 < effLength s p := by
  rw [effLength]
  split_ifs <;> assumption

/-- Two strictly overlapping intervals of positive widths have a
positive overlap. -/
theorem overlap_factor_pos {x sw qx qw : ℚ} (hsw : 0 < sw) (hqw : 0 < qw)
    (h1 : x < qx + qw) (h2 : qx < x + sw) :
    0 < min (x + sw) (qx + qw) - max x qx := by
  rw [sub_pos, max_lt_iff, lt_min_iff, lt_min_iff]
  exact ⟨⟨by linarith, h1⟩, ⟨h2, by linarith⟩⟩

/-- Appending one placed skid adds its contribution to the supported
area. -/
theorem supportedAreaOn_append_single (x z sw sl y : ℚ) (l : List Skid) (q : Skid) :
    supportedAreaOn x z sw sl y (l ++ [q]) =
      supportedAreaOn x z sw sl y l + supportContrib x z sw sl y q := by
  rw [supportedAreaOn, supportedAreaOn, List.foldl_append, List.foldl_cons, List.foldl_nil]
  rcases hq : q.position with _ | pp <;> simp only [supportContrib, hq]
  · ring
  · split_ifs <;> ring

/-- Appending one placed skid adds its contribution to the supporting
capacity. -/
theorem maxWeightSupportOn_append_single (x z sw sl y : ℚ) (l : List Skid) (q : Skid) :
    maxWeightSupportOn x z sw sl y (l ++ [q]) =
      maxWeightSupportOn x z sw sl y l + capacityContrib x z sw sl y q := by
  rw [maxWeightSupportOn, maxWeightSupportOn, List.foldl_append, List.foldl_cons,
    List.foldl_nil]
  rcases hq : q.position with _ | pp
  · simp only [capacityContrib, hq]
    ring
  · simp only [capacityContrib, hq]
    split_ifs with h1 h2
    · rcases hm : q.maxWeightOnTop with _ | m
      · simp only [hm]
      · simp only [hm]
    · ring
    · ring

/-- A placed skid with positive dimensions contributes a non-negative
area. -/
theorem supportContrib_nonneg {x z sw sl y : ℚ} (hsw : 0 < sw) (hsl : 0 < sl) {q : Skid}
    (hqw : 0 < q.width) (hql : 0 < q.length) :
    0 ≤ supportContrib x z sw sl y q := by
  rcases hq : q.position with _ | pp
  · simp [supportContrib, hq]
  · simp only [supportContrib, hq]
    split_ifs with h1 h2
    · obtain ⟨-, g1, g2, g3, g4⟩ := h2
      have hpw : 0 < effWidth q pp := effWidth_pos hqw hql
      have hpl : 0 < effLength q pp := effLength_pos hqw hql
      exact le_of_lt (mul_pos (overlap_factor_pos hsw hpw g1 g2)
        (overlap_factor_pos hsl hpl g3 g4))
    · exact le_refl 0
    · exact le_refl 0

/-- A placed skid with positive dimensions, non-negative weight and
non-negative `maxWeightOnTop` contributes a non-negative capacity. -/
theorem capacityContrib_nonneg {x z sw sl y : ℚ} (hsw : 0 < sw) (hsl : 0 < sl) {q : Skid}
    (hqw : 0 < q.width) (hql : 0 < q.length) (hqwt : 0 ≤ q.weight)
    (hqm : ∀ m ∈ q.maxWeightOnTop, 0 ≤ m) :
    0 ≤ capacityContrib x z sw sl y q := by
  rcases hq : q.position with _ | pp
  · simp [capacityContrib, hq]
  · simp only [capacityContrib, hq]
    split_ifs with h1 h2
    swap
    · exact le_refl 0
    swap
    · exact le_refl 0
    obtain ⟨-, g1, g2, g3, g4⟩ := h2
    have hpw : 0 < effWidth q pp := effWidth_pos hqw hql
    have hpl : 0 < effLength q pp := effLength_pos hqw hql
    have hpw : 0 < effWidth q pp := effWidth_pos hqw hql
    have hpl : 0 < effLength q pp := effLength_pos hqw hql
    have harea : 0 < (min (x + sw) (pp.x + effWidth q pp) - max x pp.x) *
        (min (z + sl) (pp.z + effLength q pp) - max z pp.z) :=
      mul_pos (overlap_factor_pos hsw hpw g1 g2) (overlap_factor_pos hsl hpl g3 g4)
    have hprop : 0 ≤ (min (x + sw) (pp.x + effWidth q pp) - max x pp.x) *
        (min (z + sl) (pp.z + effLength q pp) - max z pp.z) /
          (effWidth q pp * effLength q pp) :=
      le_of_lt (div_pos harea (mul_pos hpw hpl))
    rcases hm : q.maxWeightOnTop with _ | m <;> simp only [hm]
    · have h08 : (0 : ℚ) ≤ q.weight * 0.8 := by
        have hc : (0 : ℚ) ≤ 0.8 := by norm_num
        exact mul_nonneg hqwt hc
      exact mul_nonneg h08 hprop
    · exact mul_nonneg (hqm m (by rw [hm]; rfl)) hprop

end TruckLoading

namespace TruckLoading

/-- Claim C2: under the spec's data model (positive dimensions,
non-negative weight and `maxWeightOnTop`), every skid of the returned
plan placed above floor level is supported: the summed overlap area
with loaded stackable skids whose top face is exactly at its elevation
is at least 70% of its rotated footprint area, and its weight does not
exceed the capacity accumulated from those supporters. -/
theorem optimizeLoading_support_invariant (skids : List Skid) (t : TruckDimensions)
    (hgood : ∀ s ∈ skids, 0 < s.width ∧ 0 < s.length ∧ 0 ≤ s.weight ∧
      ∀ m ∈ s.maxWeightOnTop, 0 ≤ m) :
    ∀ s ∈ (optimizeLoading skids t).loadedSkids, ∀ p, s.position = some p → 0 < p.y →
      0.7 * (effWidth s p * effLength s p) ≤
          supportedAreaOn p.x p.z (effWidth s p) (effLength s p) p.y
            (optimizeLoading skids t).loadedSkids ∧
        s.weight ≤ maxWeightSupportOn p.x p.z (effWidth s p) (effLength s p) p.y
          (optimizeLoading skids t).loadedSkids := by
  rw [optimizeLoading_loadedSkids]
  refine (loadSkidsLoop_induction t
    (fun s => 0 < s.width ∧ 0 < s.length ∧ 0 ≤ s.weight ∧ ∀ m ∈ s.maxWeightOnTop, 0 ≤ m)
    (fun loaded =>
      (∀ q ∈ loaded, 0 < q.width ∧ 0 < q.length ∧ 0 ≤ q.weight ∧
        ∀ m ∈ q.maxWeightOnTop, 0 ≤ m) ∧
      ∀ s ∈ loaded, ∀ p, s.position = some p → 0 < p.y →
        0.7 * (effWidth s p * effLength s p) ≤
            supportedAreaOn p.x p.z (effWidth s p) (effLength s p) p.y loaded ∧
          s.weight ≤ maxWeightSupportOn p.x p.z (effWidth s p) (effLength s p) p.y loaded)
    ?_ (sortSkidsForLoading skids) [] ?_ ⟨by simp, by simp⟩).2
  · intro loaded skid p hPskid hmot hmem
    obtain ⟨hgoodL, hsupL⟩ := hmot
    obtain ⟨hw, hl, hwt, hmw⟩ := hPskid
    have hcan := (mem_findPossiblePositions hmem).1
    constructor
    · intro q hq
      rcases List.mem_append.mp hq with hq | hq
      · exact hgoodL q hq
      · simp only [List.mem_singleton] at hq
        subst hq
        exact ⟨hw, hl, hwt, hmw⟩
    · intro s hs pp hpp hy
      rcases List.mem_append.mp hs with hs | hs
      · have hold := hsupL s hs pp hpp hy
        have hgs := hgoodL s hs
        have hsw : 0 < effWidth s pp := effWidth_pos hgs.1 hgs.2.1
        have hsl : 0 < effLength s pp := effLength_pos hgs.1 hgs.2.1
        rw [supportedAreaOn_append_single, maxWeightSupportOn_append_single]
        have hA := supportContrib_nonneg (x := pp.x) (z := pp.z) (y := pp.y) hsw hsl
          (q := { skid with position := some p }) hw hl
        have hC := capacityContrib_nonneg (x := pp.x) (z := pp.z) (y := pp.y) hsw hsl
          (q := { skid with position := some p }) hw hl hwt hmw
        exact ⟨by linarith [hold.1], by linarith [hold.2]⟩
      · simp only [List.mem_singleton] at hs
        subst hs
        have hpe : p = pp := by simpa using hpp
        subst hpe
        have hy' : 0 < p.y := hy
        obtain ⟨hsupp, hwcap⟩ := ((canPlaceSkid_eq_true_iff skid p loaded t).mp hcan).2.2 hy'
        have heW : effWidth { skid with position := some p } p = effWidth skid p := by
          simp [effWidth]
        have heL : effLength { skid with position := some p } p = effLength skid p := by
          simp [effLength]
        have hwpos : 0 < effWidth skid p := effWidth_pos hw hl
        have hlpos : 0 < effLength skid p := effLength_pos hw hl
        have hApos : 0 < effWidth skid p * effLength skid p := mul_pos hwpos hlpos
        have hsupp' : 0.7 * (effWidth skid p * effLength skid p) ≤
            supportedAreaOn p.x p.z (effWidth skid p) (effLength skid p) p.y loaded := by
          have hne : effWidth skid p * effLength skid p ≠ 0 := ne_of_gt hApos
          have hnl : ¬(supportedAreaOn p.x p.z (effWidth skid p) (effLength skid p) p.y
              loaded / (effWidth skid p * effLength skid p) < 0.7) :=
            fun hc => hsupp ⟨hne, hc⟩
          have hge := not_lt.mp hnl
          have := (le_div_iff₀ hApos).mp hge
          linarith
        rw [supportedAreaOn_append_single, maxWeightSupportOn_append_single, heW, heL]
        have hA := supportContrib_nonneg (x := p.x) (z := p.z) (y := p.y) hwpos hlpos
          (q := { skid with position := some p }) hw hl
        have hC := capacityContrib_nonneg (x := p.x) (z := p.z) (y := p.y) hwpos hlpos
          (q := { skid with position := some p }) hw hl hwt hmw
        constructor
        · linarith
        · have : ({ skid with position := some p } : Skid).weight = skid.weight := rfl
          rw [this]
          linarith
  · intro s hs
    rw [sortSkidsForLoading] at hs
    exact hgood s ((List.mem_insertionSort loadingLE).mp hs)

end TruckLoading

namespace TruckLoading

/-- Witness for C2 at a concrete input: in the two-skid plan the
stacked skid (placed at `y = 3/10` on top of the stackable base) meets
both support conditions. -/
theorem optimizeLoading_support_invariant_witness :
    (∀ s ∈ [exSkidA, exSkidB], 0 < s.width ∧ 0 < s.length ∧ 0 ≤ s.weight ∧
        ∀ m ∈ s.maxWeightOnTop, 0 ≤ m) ∧
      (0.7 * (effWidth { exSkidB with position := some ⟨0, 3/10, 0, 0⟩ } ⟨0, 3/10, 0, 0⟩ *
            effLength { exSkidB with position := some ⟨0, 3/10, 0, 0⟩ } ⟨0, 3/10, 0, 0⟩) ≤
          supportedAreaOn 0 0
            (effWidth { exSkidB with position := some ⟨0, 3/10, 0, 0⟩ } ⟨0, 3/10, 0, 0⟩)
            (effLength { exSkidB with position := some ⟨0, 3/10, 0, 0⟩ } ⟨0, 3/10, 0, 0⟩)
            (3/10) (optimizeLoading [exSkidA, exSkidB] exTruck).loadedSkids ∧
        ({ exSkidB with position := some ⟨0, 3/10, 0, 0⟩ } : Skid).weight ≤
          maxWeightSupportOn 0 0
            (effWidth { exSkidB with position := some ⟨0, 3/10, 0, 0⟩ } ⟨0, 3/10, 0, 0⟩)
            (effLength { exSkidB with position := some ⟨0, 3/10, 0, 0⟩ } ⟨0, 3/10, 0, 0⟩)
            (3/10) (optimizeLoading [exSkidA, exSkidB] exTruck).loadedSkids) :=
  have hgood : ∀ s ∈ [exSkidA, exSkidB], 0 < s.width ∧ 0 < s.length ∧ 0 ≤ s.weight ∧
      ∀ m ∈ s.maxWeightOnTop, 0 ≤ m := by
    intro s hs
    rcases List.mem_cons.mp hs with h | hs
    · subst h
      refine ⟨by norm_num [exSkidA], by norm_num [exSkidA], by norm_num [exSkidA], ?_⟩
      intro m hm
      have h100 : 100 = m := by simpa [exSkidA] using hm
      rw [← h100]
      norm_num
    · rcases List.mem_cons.mp hs with h | hs
      · subst h
        refine ⟨by norm_num [exSkidB], by norm_num [exSkidB], by norm_num [exSkidB], ?_⟩
        intro m hm
        simp [exSkidB] at hm
      · simp at hs
  have hmem : { exSkidB with position := some ⟨0, 3/10, 0, 0⟩ } ∈
      (optimizeLoading [exSkidA, exSkidB] exTruck).loadedSkids := by
    with_unfolding_all decide
  ⟨hgood, optimizeLoading_support_invariant [exSkidA, exSkidB] exTruck hgood
    _ hmem ⟨0, 3/10, 0, 0⟩ rfl (by norm_num)⟩

end TruckLoading
